import Mathlib

/-!
Shallow embedding of the `ArtworkList` React component
(src/src/components/ArtworkList.tsx): a paginated artwork table with
cross-page selection accumulation persisted to local storage.

State hooks become fields of `ComponentState`; each event handler or
effect becomes a pure function from state (plus the outcome of any
`fetch` it performs) to a new state together with the list of toast
notifications it shows.  Machine integers are modelled as `Int`/`Nat`
(JavaScript numbers stay far below 2^53 here, so no overflow modelling
is needed); fallible parsing returns `Option`.
-/

namespace ArtworkCatalog

/-- One artwork record as declared by `interface Artwork`. -/
structure Artwork where
  id : Int
  title : String
  place_of_origin : String
  artist_display : String
  inscriptions : Option String
  date_start : Int
  date_end : Int
deriving Repr, DecidableEq

/-- Pagination metadata of the API envelope (`interface ApiResponse`). -/
structure PageMeta where
  total : Nat
  limit : Nat
  offset : Nat
  total_pages : Nat
  current_page : Nat
deriving Repr, DecidableEq

/-- The JSON envelope returned by the catalog API. -/
structure ApiResponse where
  data : List Artwork
  pagination : PageMeta
deriving Repr, DecidableEq

/-- Outcome of one `fetch` call: a parsed success, or one of the three
failure modes that all land in the `catch` block of the source. -/
inductive FetchOutcome where
  | success (resp : ApiResponse)
  | networkError
  | httpError
  | parseError
deriving Repr, DecidableEq

/-- Whether the outcome lands in the `catch` block. -/
def FetchOutcome.isError : FetchOutcome → Bool
  | .success _ => false
  | _ => true

/-- Severity of a toast notification. -/
inductive ToastSeverity where
  | error
  | info
deriving Repr, DecidableEq

/-- A toast notification shown to the user (`toast.current?.show`). -/
structure ToastMsg where
  severity : ToastSeverity
  summary : String
  detail : String
deriving Repr, DecidableEq

/-- The `lazyParams` state hook. -/
structure LazyParams where
  first : Nat
  rows : Nat
  page : Nat
  sortField : Option String
  sortOrder : Option Int
deriving Repr, DecidableEq

/-- All `useState` hooks of the component. -/
structure ComponentState where
  artworks : List Artwork
  loading : Bool
  totalRecords : Nat
  lazyParams : LazyParams
  selectedArtworkIds : List Int
  selectAll : Bool
  rowSelection : String
  pendingSelection : Nat
deriving Repr, DecidableEq

/-- The initial hook values of `ArtworkList`. -/
def initialState : ComponentState :=
  { artworks := []
    loading := true
    totalRecords := 0
    lazyParams := { first := 0, rows := 12, page := 1, sortField := none, sortOrder := none }
    selectedArtworkIds := []
    selectAll := false
    rowSelection := ""
    pendingSelection := 0 }

/-- JavaScript `parseInt(s, 10)`: skip leading whitespace, read an
optional sign, then the longest run of decimal digits; `NaN` (here
`none`) when no digit is found, trailing junk ignored. -/
def parseIntJS (s : String) : Option Int :=
  let cs := s.data.dropWhile (fun c => c == ' ' || c == '\t' || c == '\n' || c == '\r')
  let signAndRest : Int × List Char :=
    match cs with
    | '-' :: r => (-1, r)
    | '+' :: r => (1, r)
    | r => (1, r)
  let digs := signAndRest.2.takeWhile (fun c => '0' ≤ c && c ≤ '9')
  if digs.isEmpty then none
  else some (signAndRest.1 * (digs.foldl (fun a c => a * 10 + (c.toNat - '0'.toNat)) 0 : Nat))

/-- `Array.from(new Set(l))`: deduplication keeping the first
occurrence of each element, in order. -/
def dedupKeepFirst : List Int → List Int
  | [] => []
  | x :: xs => x :: (dedupKeepFirst xs).filter (fun y => y != x)

/-- `fetchArtworks`: sets the loading flag, performs one fetch; on
success replaces the displayed page and total count, on any failure
shows an error toast; the loading flag is cleared in `finally`. -/
def fetchArtworks (st : ComponentState) (outcome : FetchOutcome) :
    ComponentState × List ToastMsg :=
  let st1 := { st with loading := true }
  match outcome with
  | .success resp =>
      ({ st1 with artworks := resp.data
                  totalRecords := resp.pagination.total
                  loading := false }, [])
  | _ =>
      ({ st1 with loading := false },
       [⟨.error, "Error", "Failed to fetch artworks"⟩])

/-- `fetchNextPage`: one step of the cross-page selection walk.  On
success it takes the needed prefix of the fetched page's identifiers,
appends them to the selection, lowers the pending count, and either
stops (pending forced to 0) or advances the page; on any failure it
resets the pending count and shows an error toast. -/
def fetchNextPage (st : ComponentState) (outcome : FetchOutcome) :
    ComponentState × List ToastMsg :=
  let nextPage := st.lazyParams.page + 1
  match outcome with
  | .success resp =>
      let newArtworks := resp.data
      let remainingToSelect := min st.pendingSelection newArtworks.length
      let newSelectedIds := (newArtworks.take remainingToSelect).map (fun a => a.id)
      let st1 := { st with
        selectedArtworkIds := st.selectedArtworkIds ++ newSelectedIds
        pendingSelection := st.pendingSelection - remainingToSelect }
      if remainingToSelect < newArtworks.length ∨
          st.totalRecords ≤ nextPage * st.lazyParams.rows then
        ({ st1 with pendingSelection := 0 }, [])
      else
        ({ st1 with lazyParams := { st1.lazyParams with page := nextPage } }, [])
  | _ =>
      ({ st with pendingSelection := 0 },
       [⟨.error, "Error", "Failed to fetch more artworks"⟩])

/-- `handleSubmit`: parse the requested count; reject `NaN` or a
negative value with a validation toast and no state change; otherwise
replace the current page's contribution to the selection by the first
`min(numRows, pageLength)` identifiers of the page, record any
shortfall as the pending count, and recompute the select-all flag. -/
def handleSubmit (st : ComponentState) : ComponentState × List ToastMsg :=
  match parseIntJS st.rowSelection with
  | none =>
      (st, [⟨.error, "Invalid Input", "Please enter a valid number of rows to select."⟩])
  | some numRows =>
      if numRows < 0 then
        (st, [⟨.error, "Invalid Input", "Please enter a valid number of rows to select."⟩])
      else
        let currentPageIds := st.artworks.map (fun a => a.id)
        let remainingSelection :=
          st.selectedArtworkIds.filter (fun id => !(decide (id ∈ currentPageIds)))
        let newSelection :=
          remainingSelection ++ currentPageIds.take (min numRows.toNat currentPageIds.length)
        let newPending := (numRows - currentPageIds.length).toNat
        let st' := { st with
          selectedArtworkIds := newSelection
          pendingSelection := newPending
          selectAll := decide (newSelection.length + newPending = st.totalRecords) }
        (st',
         if (currentPageIds.length : Int) < numRows then
           [⟨.info, "Selection Pending",
             "Selecting " ++ toString numRows ++ " items. This may span multiple pages."⟩]
         else [])

/-- The `onChange` handler of a row checkbox (`checkboxTemplate`):
append the row's identifier when checking, filter it out when
unchecking, and recompute the select-all flag. -/
def checkboxToggle (st : ComponentState) (rowId : Int) (checked : Bool) :
    ComponentState :=
  let newSelection :=
    if checked then st.selectedArtworkIds ++ [rowId]
    else st.selectedArtworkIds.filter (fun id => id != rowId)
  { st with selectedArtworkIds := newSelection
            selectAll := decide (newSelection.length = st.totalRecords) }

/-- A click on a row checkbox: the widget is bound to
`checked = isSelected`, so the event's `checked` is the negation of
current membership. -/
def clickRecordCheckbox (st : ComponentState) (rowId : Int) : ComponentState :=
  checkboxToggle st rowId (!(decide (rowId ∈ st.selectedArtworkIds)))

/-- The `onChange` handler of the header checkbox (`selectAllTemplate`):
checking unions in all current-page identifiers through a `Set`
(deduplicating), unchecking filters out every current-page identifier. -/
def selectAllToggle (st : ComponentState) (checked : Bool) : ComponentState :=
  if checked then
    let allIds := st.artworks.map (fun a => a.id)
    { st with selectedArtworkIds := dedupKeepFirst (st.selectedArtworkIds ++ allIds) }
  else
    let currentPageIds := st.artworks.map (fun a => a.id)
    { st with selectedArtworkIds :=
        st.selectedArtworkIds.filter (fun id => !(decide (id ∈ currentPageIds))) }

/-- The mount effect's storage read: a stored identifier list replaces
the selection. -/
def loadStoredSelection (st : ComponentState) (stored : Option (List Int)) :
    ComponentState :=
  match stored with
  | some ids => { st with selectedArtworkIds := ids }
  | none => st

/-- A user-visible or network event driving the component; each
constructor names the code it triggers. -/
inductive Op where
  | clickRecord (rowId : Int)
  | clickSelectAll (checked : Bool)
  | submit
  | setRowSelection (s : String)
  | pageLoad (outcome : FetchOutcome)
  | walkFetch (outcome : FetchOutcome)
  | loadStored (stored : Option (List Int))
deriving Repr, DecidableEq

/-- Apply one event to the component state. -/
def applyOp (st : ComponentState) : Op → ComponentState
  | .clickRecord rowId => clickRecordCheckbox st rowId
  | .clickSelectAll checked => selectAllToggle st checked
  | .submit => (handleSubmit st).1
  | .setRowSelection s => { st with rowSelection := s }
  | .pageLoad outcome => (fetchArtworks st outcome).1
  | .walkFetch outcome => (fetchNextPage st outcome).1
  | .loadStored stored => loadStoredSelection st stored

/-- Apply a sequence of events. -/
def applyOps (st : ComponentState) (ops : List Op) : ComponentState :=
  ops.foldl applyOp st

/-- One step of the cross-page selection walk driven by the
`useEffect` on `pendingSelection`: `fetchNextPage` fetches page
`lazyParams.page + 1` from the server, modelled by `supplier`. -/
def walkStep (supplier : Nat → ApiResponse) (st : ComponentState) : ComponentState :=
  (fetchNextPage st (.success (supplier (st.lazyParams.page + 1)))).1

/-- Run up to `n` walk steps; the effect only fires while the pending
count is positive. -/
def walkRun (supplier : Nat → ApiResponse) : Nat → ComponentState → ComponentState
  | 0, st => st
  | n + 1, st =>
      if st.pendingSelection = 0 then st
      else walkRun supplier n (walkStep supplier st)

/-- Component state together with the local-storage slot holding the
JSON-serialized selected-identifier array (modelled as the parsed
list, since JSON round-trips integer arrays exactly). -/
structure AppState where
  comp : ComponentState
  storage : Option (List Int)
deriving Repr, DecidableEq

/-- Apply one event and then run the persistence effect
(`localStorage.setItem` fires after every selection render). -/
def appStep (s : AppState) (op : Op) : AppState :=
  let c := applyOp s.comp op
  { comp := c, storage := some c.selectedArtworkIds }

/-- Apply a sequence of events with persistence. -/
def appRun (s : AppState) (ops : List Op) : AppState :=
  ops.foldl appStep s

/-- The mount effect's storage read applied to the app state. -/
def mountLoad (s : AppState) : AppState :=
  { s with comp := loadStoredSelection s.comp s.storage }

/-- Side conditions under which one event preserves uniqueness of the
selection: pages handed to `handleSubmit` or to the walk carry
pairwise-distinct identifiers, walk pages carry no identifier that is
already selected, and a restored stored list is duplicate-free. -/
def opOk (st : ComponentState) : Op → Bool
  | .submit => decide (st.artworks.map (fun a => a.id)).Nodup
  | .walkFetch (.success resp) =>
      decide (resp.data.map (fun a => a.id)).Nodup &&
      resp.data.all (fun a => !(decide (a.id ∈ st.selectedArtworkIds)))
  | .loadStored (some ids) => decide ids.Nodup
  | _ => true

/-- The side conditions of `opOk` along a whole event sequence. -/
def seqOk (st : ComponentState) : List Op → Bool
  | [] => true
  | op :: ops => opOk st op && seqOk (applyOp st op) ops

/-- A concrete artwork record used in witnesses. -/
def sampleArtwork (i : Int) : Artwork :=
  { id := i, title := "", place_of_origin := "", artist_display := "",
    inscriptions := none, date_start := 0, date_end := 0 }

/-- A concrete two-record page used in witnesses. -/
def samplePage : List Artwork := [sampleArtwork 3, sampleArtwork 7]

/-- A concrete state about to submit a count within the page size. -/
def sampleStateC3 : ComponentState :=
  { initialState with artworks := samplePage, rowSelection := "1" }

/-- A concrete state about to submit a count above the page size. -/
def sampleStateC2 : ComponentState :=
  { initialState with artworks := samplePage, rowSelection := "3" }

/-- A concrete state with an existing selection about to submit zero. -/
def sampleStateC9 : ComponentState :=
  { initialState with artworks := samplePage, rowSelection := "0",
                      selectedArtworkIds := [3, 42] }

/-- A concrete state with one on-page and one off-page selected id. -/
def sampleStateC10 : ComponentState :=
  { initialState with artworks := samplePage, selectedArtworkIds := [3, 42] }

/-- An event sequence realizing the duplicate-selection scenario: load
a one-record page, submit a count of 2 (one pending), then the walk
fetches a page that repeats the already-selected identifier 1. -/
def overlapWalkOps : List Op :=
  [Op.pageLoad (.success ⟨[sampleArtwork 1], ⟨100, 12, 0, 9, 1⟩⟩),
   Op.setRowSelection "2",
   Op.submit,
   Op.walkFetch (.success ⟨[sampleArtwork 1], ⟨100, 12, 12, 9, 2⟩⟩)]

/-- An event sequence whose walk pages are fresh, used as a witness. -/
def freshWalkOps : List Op :=
  [Op.pageLoad (.success ⟨[sampleArtwork 1], ⟨100, 12, 0, 9, 1⟩⟩),
   Op.setRowSelection "2",
   Op.submit,
   Op.walkFetch (.success ⟨[sampleArtwork 2], ⟨100, 12, 12, 9, 2⟩⟩),
   Op.clickRecord 5,
   Op.clickSelectAll true]

/-- A concrete page supplier that always returns an empty page. -/
def emptySupplier : Nat → ApiResponse := fun _ => ⟨[], ⟨0, 0, 0, 0, 0⟩⟩

/-- A concrete state in the middle of a cross-page walk. -/
def sampleWalkState : ComponentState :=
  { initialState with pendingSelection := 5, totalRecords := 100 }

/-- A concrete app state before any event. -/
def sampleApp : AppState := { comp := initialState, storage := none }

/-! Helper lemmas shared by the claim theorems. -/

/-- A walk step changes neither the page size nor the total count. -/
theorem walkStep_rows (sup : Nat → ApiResponse) (st : ComponentState) :
    (walkStep sup st).lazyParams.rows = st.lazyParams.rows ∧
    (walkStep sup st).totalRecords = st.totalRecords := by
  simp only [walkStep, fetchNextPage]
  split <;> exact ⟨rfl, rfl⟩

/-- A walk step that leaves the pending count positive advanced the
page and happened strictly before the data source was exhausted. -/
theorem walkStep_continue (sup : Nat → ApiResponse) (st : ComponentState)
    (h : (walkStep sup st).pendingSelection ≠ 0) :
    (walkStep sup st).lazyParams.page = st.lazyParams.page + 1 ∧
    (st.lazyParams.page + 1) * st.lazyParams.rows < st.totalRecords := by
  revert h
  simp only [walkStep, fetchNextPage]
  split
  · intro h
    exact absurd rfl h
  · rename_i hcond
    push_neg at hcond
    intro _
    exact ⟨rfl, hcond.2⟩

/-- With a positive page size, the walk drives the pending count to
zero within a number of steps bounded by the remaining page range. -/
theorem walkRun_reaches_zero (sup : Nat → ApiResponse) :
    ∀ (m : Nat) (st : ComponentState),
      st.totalRecords ≤ st.lazyParams.page + m → 1 ≤ st.lazyParams.rows →
      ∃ n, (walkRun sup n st).pendingSelection = 0 := by
  intro m
  induction m with
  | zero =>
    intro st hm hrows
    by_cases hp : st.pendingSelection = 0
    · exact ⟨0, hp⟩
    · refine ⟨1, ?_⟩
      simp only [walkRun, if_neg hp]
      by_contra hns
      have hc := walkStep_continue sup st hns
      have : st.lazyParams.page + 1 ≤ (st.lazyParams.page + 1) * st.lazyParams.rows :=
        Nat.le_mul_of_pos_right _ hrows
      omega
  | succ m ih =>
    intro st hm hrows
    by_cases hp : st.pendingSelection = 0
    · exact ⟨0, hp⟩
    · by_cases hs : (walkStep sup st).pendingSelection = 0
      · exact ⟨1, by simp only [walkRun, if_neg hp]; exact hs⟩
      · obtain ⟨hpage, hlt⟩ := walkStep_continue sup st hs
        obtain ⟨hr, ht⟩ := walkStep_rows sup st
        have hmono : (walkStep sup st).totalRecords ≤
            (walkStep sup st).lazyParams.page + m := by
          rw [ht, hpage]
          have : st.lazyParams.page + 1 ≤ (st.lazyParams.page + 1) * st.lazyParams.rows :=
            Nat.le_mul_of_pos_right _ hrows
          omega
        obtain ⟨n, hn⟩ := ih (walkStep sup st) hmono (hr ▸ hrows)
        exact ⟨n + 1, by simp only [walkRun, if_neg hp]; exact hn⟩

/-- After a nonempty event sequence, the storage slot holds exactly
the in-memory selection. -/
theorem appRun_storage : ∀ (ops : List Op) (s : AppState), ops ≠ [] →
    (appRun s ops).storage = some (appRun s ops).comp.selectedArtworkIds := by
  intro ops
  induction ops with
  | nil => intro s h; exact absurd rfl h
  | cons op rest ih =>
    intro s _
    cases rest with
    | nil => rfl
    | cons op2 rest2 => exact ih (appStep s op) (List.cons_ne_nil _ _)

/-- The JavaScript `Set` construction yields a duplicate-free list. -/
theorem dedupKeepFirst_nodup (l : List Int) : (dedupKeepFirst l).Nodup := by
  induction l with
  | nil => simp [dedupKeepFirst]
  | cons x xs ih =>
    simp only [dedupKeepFirst, List.nodup_cons]
    refine ⟨?_, ih.filter _⟩
    intro hmem
    have := (List.mem_filter.mp hmem).2
    simp at this

/-- Each event preserves uniqueness of the selection under the side
conditions of `opOk`. -/
theorem applyOp_preserves_nodup (st : ComponentState) (op : Op)
    (hsel : st.selectedArtworkIds.Nodup) (hok : opOk st op = true) :
    (applyOp st op).selectedArtworkIds.Nodup := by
  cases op with
  | clickRecord rowId =>
    by_cases h : rowId ∈ st.selectedArtworkIds
    · have hcond : (!(decide (rowId ∈ st.selectedArtworkIds))) = false := by
        simp [h]
      simp only [applyOp, clickRecordCheckbox, checkboxToggle, hcond,
        Bool.false_eq_true, if_false]
      exact hsel.filter _
    · have hcond : (!(decide (rowId ∈ st.selectedArtworkIds))) = true := by
        simp [h]
      simp only [applyOp, clickRecordCheckbox, checkboxToggle, hcond, if_true]
      simp [List.nodup_append, hsel, h]
  | clickSelectAll checked =>
    cases checked with
    | true =>
      simp only [applyOp, selectAllToggle, if_true]
      exact dedupKeepFirst_nodup _
    | false =>
      simp only [applyOp, selectAllToggle, Bool.false_eq_true, if_false]
      exact hsel.filter _
  | submit =>
    simp only [applyOp, handleSubmit]
    split
    · exact hsel
    · split
      · exact hsel
      · rename_i n hp hneg
        have hpn : (st.artworks.map (fun a => a.id)).Nodup := by
          simpa [opOk] using hok
        refine List.Nodup.append (hsel.filter _) ((List.take_sublist _ _).nodup hpn) ?_
        intro a ha hb
        have h1 := (List.mem_filter.mp ha).2
        have h2 : a ∈ st.artworks.map (fun a => a.id) := List.take_subset _ _ hb
        simp only [Bool.not_eq_true', decide_eq_false_iff_not] at h1
        exact h1 h2
  | setRowSelection s => exact hsel
  | pageLoad outcome => cases outcome <;> exact hsel
  | walkFetch outcome =>
    cases outcome with
    | success resp =>
      have hok' : (resp.data.map (fun a => a.id)).Nodup ∧
          ∀ b ∈ resp.data, b.id ∉ st.selectedArtworkIds := by
        simpa [opOk, List.all_eq_true] using hok
      have key : (st.selectedArtworkIds ++
          ((resp.data.take (min st.pendingSelection resp.data.length)).map
            (fun a => a.id))).Nodup := by
        refine List.Nodup.append hsel ?_ ?_
        · rw [List.map_take]
          exact (List.take_sublist _ _).nodup hok'.1
        · intro a ha hb
          rw [List.map_take] at hb
          obtain ⟨b, hbmem, hbid⟩ := List.mem_map.mp (List.take_subset _ _ hb)
          exact hok'.2 b hbmem (hbid ▸ ha)
      simp only [applyOp, fetchNextPage]
      split
      · exact key
      · exact key
    | networkError => exact hsel
    | httpError => exact hsel
    | parseError => exact hsel
  | loadStored stored =>
    cases stored with
    | none => exact hsel
    | some ids => simpa [opOk] using hok

/-! Claim theorems. -/

/-- Claim C1, counterexample: starting from the initial state, a
realizable event sequence whose cross-page walk fetches a page
repeating an already-selected identifier leaves identifier 1 twice in
the selected-identifier list, so the selection is not duplicate-free. -/
theorem walk_overlap_creates_duplicate :
    ¬ (applyOps initialState overlapWalkOps).selectedArtworkIds.Nodup := by
  decide

/-- Claim C1, amended: after any event sequence the selection list is
duplicate-free, provided displayed pages carry pairwise-distinct
identifiers and every page fetched during the cross-page walk carries
only identifiers not already selected (`seqOk`); without the latter
condition the walk appends fetched identifiers without deduplication. -/
theorem selection_nodup_with_fresh_walk_pages :
    ∀ (ops : List Op) (st : ComponentState),
      st.selectedArtworkIds.Nodup → seqOk st ops = true →
      (applyOps st ops).selectedArtworkIds.Nodup := by
  intro ops
  induction ops with
  | nil => intro st h _; exact h
  | cons op rest ih =>
    intro st h hok
    simp only [seqOk, Bool.and_eq_true] at hok
    exact ih (applyOp st op) (applyOp_preserves_nodup st op h hok.1) hok.2

/-- Claim C1, witness: a concrete sequence with a page load, a
submission spilling one identifier to the next page, a fresh walk
fetch, a row click and a select-all click keeps the selection
duplicate-free. -/
theorem selection_nodup_witness :
    (applyOps initialState freshWalkOps).selectedArtworkIds.Nodup :=
  selection_nodup_with_fresh_walk_pages freshWalkOps initialState (by decide) (by decide)

/-- Claim C2: submitting a count above the current page length selects
every current-page identifier and sets the pending count to the count
minus the page length; each successful walk fetch then appends the
needed prefix of the fetched page's identifiers in server order,
lowers the pending count by the amount taken, and the pending count
reaches zero exactly when the shortfall is satisfied or the page
offset reaches the total record count. -/
theorem submit_overflow_cross_page (st : ComponentState) (n : Int)
    (hparse : parseIntJS st.rowSelection = some n)
    (hgt : (st.artworks.length : Int) < n) :
    ((∀ a ∈ st.artworks, a.id ∈ (handleSubmit st).1.selectedArtworkIds) ∧
     ((handleSubmit st).1.pendingSelection : Int) = n - st.artworks.length) ∧
    (∀ (s : ComponentState) (resp : ApiResponse), 0 < s.pendingSelection →
       (fetchNextPage s (.success resp)).1.selectedArtworkIds =
         s.selectedArtworkIds ++
           (resp.data.map (fun a => a.id)).take (min s.pendingSelection resp.data.length) ∧
       ((fetchNextPage s (.success resp)).1.pendingSelection = 0 ∨
        (fetchNextPage s (.success resp)).1.pendingSelection =
          s.pendingSelection - min s.pendingSelection resp.data.length) ∧
       ((fetchNextPage s (.success resp)).1.pendingSelection = 0 ↔
        (s.pendingSelection ≤ resp.data.length ∨
         s.totalRecords ≤ (s.lazyParams.page + 1) * s.lazyParams.rows))) := by
  have h0 : 0 ≤ n := le_of_lt (lt_of_le_of_lt (Int.ofNat_nonneg _) hgt)
  have hnot : ¬ n < 0 := not_lt.mpr h0
  constructor
  · constructor
    · intro a ha
      simp only [handleSubmit, hparse, if_neg hnot]
      refine List.mem_append.mpr (Or.inr ?_)
      have hmin : min n.toNat (st.artworks.map (fun a => a.id)).length =
          (st.artworks.map (fun a => a.id)).length := by
        simp only [List.length_map]
        omega
      rw [hmin, List.take_length]
      exact List.mem_map.mpr ⟨a, ha, rfl⟩
    · simp only [handleSubmit, hparse, if_neg hnot, List.length_map]
      omega
  · intro s resp hpend
    refine ⟨?_, ?_, ?_⟩
    · simp only [fetchNextPage]
      split
      · simp only [List.map_take]
      · simp only [List.map_take]
    · simp only [fetchNextPage]
      split
      · exact Or.inl rfl
      · exact Or.inr rfl
    · simp only [fetchNextPage]
      split
      · rename_i hcond
        simp only [eq_self_iff_true, true_iff]
        omega
      · rename_i hcond
        push_neg at hcond
        obtain ⟨h1, h2⟩ := hcond
        simp only [Nat.sub_eq_zero_iff_le]
        omega

/-- Claim C2, witness: submitting a count of 3 on a two-record page
instantiates the overflow behaviour. -/
theorem submit_overflow_witness :
    ((∀ a ∈ sampleStateC2.artworks,
        a.id ∈ (handleSubmit sampleStateC2).1.selectedArtworkIds) ∧
     ((handleSubmit sampleStateC2).1.pendingSelection : Int) =
       3 - sampleStateC2.artworks.length) ∧
    (∀ (s : ComponentState) (resp : ApiResponse), 0 < s.pendingSelection →
       (fetchNextPage s (.success resp)).1.selectedArtworkIds =
         s.selectedArtworkIds ++
           (resp.data.map (fun a => a.id)).take (min s.pendingSelection resp.data.length) ∧
       ((fetchNextPage s (.success resp)).1.pendingSelection = 0 ∨
        (fetchNextPage s (.success resp)).1.pendingSelection =
          s.pendingSelection - min s.pendingSelection resp.data.length) ∧
       ((fetchNextPage s (.success resp)).1.pendingSelection = 0 ↔
        (s.pendingSelection ≤ resp.data.length ∨
         s.totalRecords ≤ (s.lazyParams.page + 1) * s.lazyParams.rows))) :=
  submit_overflow_cross_page sampleStateC2 3 (by decide) (by decide)

/-- Claim C3: submitting a count between zero and the current page
length selects, among the current page's identifiers, exactly the
first that many in server-returned order, and leaves the pending
count at zero. -/
theorem submit_within_page_selects_prefix (st : ComponentState) (n : Int)
    (hparse : parseIntJS st.rowSelection = some n) (h0 : 0 ≤ n)
    (hle : n ≤ (st.artworks.length : Int)) :
    (handleSubmit st).1.selectedArtworkIds.filter
        (fun id => decide (id ∈ st.artworks.map (fun a => a.id))) =
      (st.artworks.map (fun a => a.id)).take n.toNat ∧
    (handleSubmit st).1.pendingSelection = 0 := by
  have hnot : ¬ n < 0 := not_lt.mpr h0
  have hlen : n.toNat ≤ (st.artworks.map (fun a => a.id)).length := by
    simp only [List.length_map]; omega
  constructor
  · simp only [handleSubmit, hparse, if_neg hnot]
    rw [List.filter_append]
    have h1 : (st.selectedArtworkIds.filter
        (fun id => !(decide (id ∈ st.artworks.map (fun a => a.id))))).filter
        (fun id => decide (id ∈ st.artworks.map (fun a => a.id))) = [] := by
      rw [List.filter_eq_nil_iff]
      intro a ha
      simp only [List.mem_filter, Bool.not_eq_true', decide_eq_false_iff_not] at ha
      simp [ha.2]
    have h2 : ((st.artworks.map (fun a => a.id)).take
        (min n.toNat (st.artworks.map (fun a => a.id)).length)).filter
        (fun id => decide (id ∈ st.artworks.map (fun a => a.id))) =
        (st.artworks.map (fun a => a.id)).take
          (min n.toNat (st.artworks.map (fun a => a.id)).length) := by
      rw [List.filter_eq_self]
      intro a ha
      simpa using List.take_subset _ _ ha
    rw [h1, h2, List.nil_append, min_eq_left hlen]
  · simp only [handleSubmit, hparse, if_neg hnot]
    simp only [List.length_map]
    omega

/-- Claim C3, witness: submitting 1 on a two-record page selects the
page's first identifier only. -/
theorem submit_within_page_witness :
    (handleSubmit sampleStateC3).1.selectedArtworkIds.filter
        (fun id => decide (id ∈ sampleStateC3.artworks.map (fun a => a.id))) =
      (sampleStateC3.artworks.map (fun a => a.id)).take (Int.toNat 1) ∧
    (handleSubmit sampleStateC3).1.pendingSelection = 0 :=
  submit_within_page_selects_prefix sampleStateC3 1 (by decide) (by decide) (by decide)

/-- Claim C4: a requested-count string that parses to `NaN` or to a
negative number makes the submission emit exactly the validation
toast and return the state completely unchanged. -/
theorem submit_invalid_input_no_state_change (st : ComponentState)
    (h : parseIntJS st.rowSelection = none ∨
         ∃ n, parseIntJS st.rowSelection = some n ∧ n < 0) :
    handleSubmit st =
      (st, [⟨.error, "Invalid Input", "Please enter a valid number of rows to select."⟩]) := by
  rcases h with h | ⟨n, hn, hneg⟩
  · simp [handleSubmit, h]
  · simp [handleSubmit, hn, hneg]

/-- Claim C4, witness: the non-numeric input string rejects without a
state change. -/
theorem submit_invalid_witness :
    handleSubmit { initialState with rowSelection := "abc" } =
      ({ initialState with rowSelection := "abc" },
       [⟨.error, "Invalid Input", "Please enter a valid number of rows to select."⟩]) :=
  submit_invalid_input_no_state_change _ (Or.inl (by decide))

/-- Claim C5: after every nonempty event sequence the storage slot
holds exactly the in-memory selection, and running the mount effect's
storage read restores exactly that persisted selection. -/
theorem selection_persisted_and_restored (s : AppState) (ops : List Op)
    (hne : ops ≠ []) :
    (appRun s ops).storage = some (appRun s ops).comp.selectedArtworkIds ∧
    (mountLoad (appRun s ops)).comp.selectedArtworkIds =
      (appRun s ops).comp.selectedArtworkIds := by
  have h := appRun_storage ops s hne
  refine ⟨h, ?_⟩
  simp [mountLoad, h, loadStoredSelection]

/-- Claim C5, witness: one row click persists its selection and the
mount read restores it. -/
theorem selection_persisted_witness :
    (appRun sampleApp [Op.clickRecord 5]).storage =
      some (appRun sampleApp [Op.clickRecord 5]).comp.selectedArtworkIds ∧
    (mountLoad (appRun sampleApp [Op.clickRecord 5])).comp.selectedArtworkIds =
      (appRun sampleApp [Op.clickRecord 5]).comp.selectedArtworkIds :=
  selection_persisted_and_restored sampleApp [Op.clickRecord 5] (by simp)

/-- Claim C6: when a walk fetch fails in any of the three failure
modes, the pending count is reset to zero, the selection accumulated
so far is unchanged, and exactly the error toast is shown. -/
theorem walk_fetch_failure_resets_pending (st : ComponentState) (outcome : FetchOutcome)
    (herr : outcome.isError = true) :
    (fetchNextPage st outcome).1.pendingSelection = 0 ∧
    (fetchNextPage st outcome).1.selectedArtworkIds = st.selectedArtworkIds ∧
    (fetchNextPage st outcome).2 = [⟨.error, "Error", "Failed to fetch more artworks"⟩] := by
  cases outcome <;> simp_all [fetchNextPage, FetchOutcome.isError]

/-- Claim C6, witness: a network failure during the walk resets the
pending count and keeps the selection. -/
theorem walk_fetch_failure_witness :
    (fetchNextPage initialState .networkError).1.pendingSelection = 0 ∧
    (fetchNextPage initialState .networkError).1.selectedArtworkIds =
      initialState.selectedArtworkIds ∧
    (fetchNextPage initialState .networkError).2 =
      [⟨.error, "Error", "Failed to fetch more artworks"⟩] :=
  walk_fetch_failure_resets_pending initialState .networkError (by decide)

/-- Claim C7: when a page-load fetch fails in any of the three failure
modes, the displayed table and total count are unchanged, the loading
flag is cleared, the selection is untouched, and exactly the error
toast is shown. -/
theorem page_fetch_failure_preserves_table (st : ComponentState) (outcome : FetchOutcome)
    (herr : outcome.isError = true) :
    (fetchArtworks st outcome).1.artworks = st.artworks ∧
    (fetchArtworks st outcome).1.totalRecords = st.totalRecords ∧
    (fetchArtworks st outcome).1.loading = false ∧
    (fetchArtworks st outcome).1.selectedArtworkIds = st.selectedArtworkIds ∧
    (fetchArtworks st outcome).2 = [⟨.error, "Error", "Failed to fetch artworks"⟩] := by
  cases outcome <;> simp_all [fetchArtworks, FetchOutcome.isError]

/-- Claim C7, witness: a non-2xx page load leaves the empty initial
table unchanged and clears the loading flag. -/
theorem page_fetch_failure_witness :
    (fetchArtworks initialState .httpError).1.artworks = initialState.artworks ∧
    (fetchArtworks initialState .httpError).1.totalRecords = initialState.totalRecords ∧
    (fetchArtworks initialState .httpError).1.loading = false ∧
    (fetchArtworks initialState .httpError).1.selectedArtworkIds =
      initialState.selectedArtworkIds ∧
    (fetchArtworks initialState .httpError).2 =
      [⟨.error, "Error", "Failed to fetch artworks"⟩] :=
  page_fetch_failure_preserves_table initialState .httpError (by decide)

/-- Claim C8: with a positive page size, from any state the cross-page
walk reaches pending count zero after finitely many accumulation
steps, whatever pages the server supplies. -/
theorem cross_page_walk_terminates (supplier : Nat → ApiResponse) (st : ComponentState)
    (hrows : 1 ≤ st.lazyParams.rows) (_hpend : 0 < st.pendingSelection) :
    ∃ n, (walkRun supplier n st).pendingSelection = 0 :=
  walkRun_reaches_zero supplier st.totalRecords st (by omega) hrows

/-- Claim C8, witness: a walk with five pending items over a supplier
of empty pages terminates. -/
theorem cross_page_walk_terminates_witness :
    ∃ n, (walkRun emptySupplier n sampleWalkState).pendingSelection = 0 :=
  cross_page_walk_terminates emptySupplier sampleWalkState (by decide) (by decide)

/-- Claim C9: a valid submission has replacement semantics on the
current page: previously selected off-page identifiers are retained, a
current-page identifier is selected afterwards exactly when it lies in
the first `min(count, page length)` page identifiers, and off-page
identifiers are selected afterwards exactly when they were before. -/
theorem submit_replacement_semantics (st : ComponentState) (n : Int)
    (hparse : parseIntJS st.rowSelection = some n) (h0 : 0 ≤ n) :
    (∀ id ∈ st.selectedArtworkIds, id ∉ st.artworks.map (fun a => a.id) →
       id ∈ (handleSubmit st).1.selectedArtworkIds) ∧
    (∀ id ∈ st.artworks.map (fun a => a.id),
       (id ∈ (handleSubmit st).1.selectedArtworkIds ↔
        id ∈ (st.artworks.map (fun a => a.id)).take
              (min n.toNat (st.artworks.map (fun a => a.id)).length))) ∧
    (∀ id ∉ st.artworks.map (fun a => a.id),
       (id ∈ (handleSubmit st).1.selectedArtworkIds ↔ id ∈ st.selectedArtworkIds)) := by
  have hnot : ¬ n < 0 := not_lt.mpr h0
  simp only [handleSubmit, hparse, if_neg hnot]
  refine ⟨?_, ?_, ?_⟩
  · intro id hid hnp
    exact List.mem_append.mpr (Or.inl (List.mem_filter.mpr ⟨hid, by simpa using hnp⟩))
  · intro id hid
    constructor
    · intro hmem
      rcases List.mem_append.mp hmem with h | h
      · simp only [List.mem_filter, Bool.not_eq_true', decide_eq_false_iff_not] at h
        exact absurd hid h.2
      · exact h
    · intro h
      exact List.mem_append.mpr (Or.inr h)
  · intro id hnp
    constructor
    · intro hmem
      rcases List.mem_append.mp hmem with h | h
      · exact (List.mem_filter.mp h).1
      · exact absurd (List.take_subset _ _ h) hnp
    · intro h
      exact List.mem_append.mpr (Or.inl (List.mem_filter.mpr ⟨h, by simpa using hnp⟩))

/-- Claim C9, witness: submitting 0 deselects the on-page identifier 3
and keeps the off-page identifier 42. -/
theorem submit_replacement_witness :
    (∀ id ∈ sampleStateC9.selectedArtworkIds,
       id ∉ sampleStateC9.artworks.map (fun a => a.id) →
       id ∈ (handleSubmit sampleStateC9).1.selectedArtworkIds) ∧
    (∀ id ∈ sampleStateC9.artworks.map (fun a => a.id),
       (id ∈ (handleSubmit sampleStateC9).1.selectedArtworkIds ↔
        id ∈ (sampleStateC9.artworks.map (fun a => a.id)).take
              (min (Int.toNat 0) (sampleStateC9.artworks.map (fun a => a.id)).length))) ∧
    (∀ id ∉ sampleStateC9.artworks.map (fun a => a.id),
       (id ∈ (handleSubmit sampleStateC9).1.selectedArtworkIds ↔
        id ∈ sampleStateC9.selectedArtworkIds)) :=
  submit_replacement_semantics sampleStateC9 0 (by decide) (by decide)

/-- Claim C10: unchecking one displayed row removes exactly that
identifier, unchecking select-all removes exactly the displayed
identifiers, and every selected identifier off the current page
survives both operations. -/
theorem page_scoped_deselection_frame (st : ComponentState) (rowId : Int)
    (hrow : rowId ∈ st.artworks.map (fun a => a.id)) :
    (∀ j : Int, j ∈ (checkboxToggle st rowId false).selectedArtworkIds ↔
       (j ∈ st.selectedArtworkIds ∧ j ≠ rowId)) ∧
    (∀ j : Int, j ∈ (selectAllToggle st false).selectedArtworkIds ↔
       (j ∈ st.selectedArtworkIds ∧ j ∉ st.artworks.map (fun a => a.id))) ∧
    (∀ j ∈ st.selectedArtworkIds, j ∉ st.artworks.map (fun a => a.id) →
       j ∈ (checkboxToggle st rowId false).selectedArtworkIds ∧
       j ∈ (selectAllToggle st false).selectedArtworkIds) := by
  refine ⟨?_, ?_, ?_⟩
  · intro j
    simp [checkboxToggle, List.mem_filter]
  · intro j
    simp [selectAllToggle, List.mem_filter]
  · intro j hj hnp
    constructor
    · have hne : j ≠ rowId := fun heq => hnp (heq ▸ hrow)
      simp [checkboxToggle, List.mem_filter, hj, hne]
    · simp [selectAllToggle, List.mem_filter, hj]
      intro x hx heq
      exact hnp (List.mem_map.mpr ⟨x, hx, heq⟩)

/-- Claim C10, witness: unchecking row 3 or the select-all box keeps
the off-page identifier 42 selected. -/
theorem page_scoped_deselection_witness :
    (∀ j : Int, j ∈ (checkboxToggle sampleStateC10 3 false).selectedArtworkIds ↔
       (j ∈ sampleStateC10.selectedArtworkIds ∧ j ≠ 3)) ∧
    (∀ j : Int, j ∈ (selectAllToggle sampleStateC10 false).selectedArtworkIds ↔
       (j ∈ sampleStateC10.selectedArtworkIds ∧
        j ∉ sampleStateC10.artworks.map (fun a => a.id))) ∧
    (∀ j ∈ sampleStateC10.selectedArtworkIds,
       j ∉ sampleStateC10.artworks.map (fun a => a.id) →
       j ∈ (checkboxToggle sampleStateC10 3 false).selectedArtworkIds ∧
       j ∈ (selectAllToggle sampleStateC10 false).selectedArtworkIds) :=
  page_scoped_deselection_frame sampleStateC10 3 (by decide)

end ArtworkCatalog
